import Mathlib

/-!
Verification of the analytical core of the `nbaaslam` NBA value-betting
repository: player filtering (`stability_analyzer.py` / `PlayerFilter`),
stability metrics (`StabilityAnalyzer`), the probability model
(`probability_model.py` / `ProbabilityModel`) and the value detector
(`ValueDetector`).

Modelling conventions of this shallow embedding:
* Python floats are embedded as exact rationals (`ℚ`); the embedding models
  the real-number semantics of the formulas, not IEEE rounding.
* `numpy.sqrt` (inside `numpy.std`) and `scipy.stats.norm.cdf` are
  transcendental library functions; every definition that needs them is
  parametrised by functions `sqrtQ ncdf : ℚ → ℚ` standing for the square
  root and the standard normal CDF.  Claims proved for all such parameters
  hold in particular for the true functions; concrete instantiations are
  used for witnesses and counterexamples.
* Python dicts become association lists (insertion ordered, as Python
  dicts are), `None` becomes `Option`, raised exceptions become
  `Except String`.
* Number-to-text rendering (f-string formatting) is abstracted by
  `fmtQ`; no claim depends on the exact digits rendered.
-/

/-- Clamp `x` into `[lo, hi]`, as `numpy.clip` / nested `max`/`min` do. -/
def clipQ (x lo hi : ℚ) : ℚ := min (max x lo) hi

/-- Rounding to one decimal place, as `round(score, 1)` in the source. -/
def round1 (x : ℚ) : ℚ := (round (x * 10) : ℤ) / 10

/-- Arithmetic mean of a list, as `numpy.mean` (value on `[]` is junk and
is never observed on a non-error path of the source). -/
def meanQ (l : List ℚ) : ℚ := l.sum / l.length

/-- Population variance of a list, as `numpy.var` with `ddof=0`
(`numpy.std` squared). -/
def popVar (l : List ℚ) : ℚ := (l.map (fun x => (x - meanQ l) ^ 2)).sum / l.length

/-- Population standard deviation, `numpy.std`, through the abstract
square-root parameter. -/
def stdQ (sqrtQ : ℚ → ℚ) (l : List ℚ) : ℚ := sqrtQ (popVar l)

/-- Exact square root on the variances arising in the concrete inputs of
the witnesses and counterexamples below (`0`, `1` and `81/64`, on which
floating-point `numpy.sqrt` is also exact); an arbitrary value elsewhere.
Used to instantiate the abstract `sqrtQ` parameter. -/
def sqrtTable (q : ℚ) : ℚ := if q = 1 then 1 else if q = 81 / 64 then 9 / 8 else 0

/-- A concrete strictly increasing stand-in instantiation for the abstract
normal-CDF parameter `ncdf`, linear on the small z-scores arising in the
concrete inputs below. -/
def ncdfLin (z : ℚ) : ℚ := 1 / 2 + z / 10

/-- Numeric rendering used inside human-readable strings (f-strings in the
source); the exact digits are irrelevant to every claim. -/
def fmtQ (x : ℚ) : String := toString x

/-- Python `int(q)` truncation toward zero. -/
def pyInt (q : ℚ) : ℤ := if 0 ≤ q then ⌊q⌋ else ⌈q⌉

/-- Python `s or t` on strings: `t` when `s` is `None` or empty. -/
def pyOrStr (s : Option String) (t : String) : String :=
  match s with
  | some s => if s = "" then t else s
  | none => t

/-- One raw game record from a player's recent-game window; the core reads
only the `"pts"` and `"min"` keys of the Python dict. -/
structure GameRec where
  pts : ℚ
  min : ℚ
deriving DecidableEq, Repr

/-- `data_fetcher.PlayerLine`: one posted over/under market for one player.
`game_time` is kept as its rendered text (the core only formats it). -/
structure PlayerLine where
  player_name : String
  player_id : Option String
  team : String
  opponent : String
  game_id : String
  game_time : String
  is_home : Bool
  line_points : ℚ
  over_odds : ℚ
  under_odds : ℚ
  over_implied_prob : ℚ
  under_implied_prob : ℚ
deriving DecidableEq, Repr

/-- `data_fetcher.PlayerStats`: a player's recent performance window. -/
structure PlayerStats where
  player_name : String
  player_id : String
  team : String
  season_ppg : ℚ
  season_mpg : ℚ
  season_usage : ℚ
  games_played : ℕ
  last_5_games : List GameRec
  last_10_games : List GameRec
  avg_pts_last_5 : ℚ := 0
  avg_pts_last_10 : ℚ := 0
  std_pts_last_5 : ℚ := 0
  std_pts_last_10 : ℚ := 0
  avg_min_last_10 : ℚ := 0
  injury_status : Option String := none
  is_available : Bool := true
deriving DecidableEq, Repr

/-- `data_fetcher.TeamDefense`: defensive rating and pace of a team. -/
structure TeamDefense where
  team_name : String
  team_abbr : String
  def_rating : ℚ
  opp_pts_per_game : ℚ
  pace : ℚ
  vs_pg : ℚ := 0
  vs_sg : ℚ := 0
  vs_sf : ℚ := 0
  vs_pf : ℚ := 0
  vs_c : ℚ := 0
deriving DecidableEq, Repr

/-- `stability_analyzer.StabilityMetrics`. -/
structure StabilityMetrics where
  player_name : String
  mean_pts : ℚ
  std_pts : ℚ
  cv_pts : ℚ
  mean_minutes : ℚ
  std_minutes : ℚ
  cv_minutes : ℚ
  hit_rate_last_5 : ℚ
  hit_rate_last_10 : ℚ
  stability_score : ℚ
  is_stable : Bool
  risk_level : String
deriving DecidableEq, Repr

/-- `config.FilterConfig` with its defaults. -/
structure FilterConfig where
  min_minutes : ℚ := 24
  min_games_played : ℕ := 5
  excluded_statuses : List String := ["Out", "Doubtful", "Questionable"]
deriving DecidableEq, Repr

/-- `config.StabilityConfig` weights with their defaults. -/
structure StabilityConfig where
  weight_std_dev : ℚ := 35 / 100
  weight_minutes_consistency : ℚ := 30 / 100
  weight_usage_consistency : ℚ := 20 / 100
  weight_hit_rate : ℚ := 15 / 100
deriving DecidableEq, Repr

/-- `config.ContextConfig` with its defaults. -/
structure ContextConfig where
  home_advantage : ℚ := 3 / 100
  weak_defense_bonus : ℚ := 5 / 100
  high_pace_bonus : ℚ := 2 / 100
  back_to_back_penalty : ℚ := -(4 / 100)
  blowout_risk_penalty : ℚ := -(3 / 100)
  road_penalty : ℚ := -(2 / 100)
  weak_defense_threshold : ℚ := 115
  strong_defense_threshold : ℚ := 108
deriving DecidableEq, Repr

/-- `config.ValueConfig` with its defaults. -/
structure ValueConfig where
  min_edge_percent : ℚ := 5
  strong_edge_percent : ℚ := 8
  min_confidence : ℚ := 55 / 100
  max_confidence : ℚ := 85 / 100
  top_n_results : ℕ := 5
deriving DecidableEq, Repr

/-- The default `FilterConfig`. -/
def defaultFilterConfig : FilterConfig := {}

/-- The default `StabilityConfig`. -/
def defaultStabilityConfig : StabilityConfig := {}

/-- The default `ContextConfig`. -/
def defaultContextConfig : ContextConfig := {}

/-- The default `ValueConfig`. -/
def defaultValueConfig : ValueConfig := {}

/-- One rejection record produced by `PlayerFilter.filter_players`. -/
structure RejectedRec where
  player : String
  reason : String
  details : String
deriving DecidableEq, Repr

/-- The injury-report consultation of the filter's fourth gate: the entry
for the player, provided the report was supplied and is non-empty (the
`if injury_report and player_name in injury_report` truthiness test). -/
def injury_lookup (injury_report : Option (List (String × String)))
    (name : String) : Option String :=
  match injury_report with
  | none => none
  | some rep => if rep.isEmpty then none else rep.lookup name

/-- The gate cascade of `PlayerFilter.filter_players` for one line, in the
source's order; `none` means the line is accepted, `some r` is the
rejection record of the first failing gate. -/
def filter_one (cfg : FilterConfig) (stats : List (String × PlayerStats))
    (injury_report : Option (List (String × String))) (line : PlayerLine) :
    Option RejectedRec :=
  let player_name := line.player_name
  match stats.lookup player_name with
  | none =>
      some ⟨player_name, "Нет статистики", "Игрок не найден в базе данных"⟩
  | some player_stats =>
      if player_stats.avg_min_last_10 < cfg.min_minutes then
        some ⟨player_name, "Мало минут",
          "Avg MIN: " ++ fmtQ player_stats.avg_min_last_10 ++ " < " ++ fmtQ cfg.min_minutes⟩
      else if player_stats.games_played < cfg.min_games_played then
        some ⟨player_name, "Мало игр",
          "Игр: " ++ toString player_stats.games_played ++ " < " ++ toString cfg.min_games_played⟩
      else
        let inj_status : Option String := injury_lookup injury_report player_name
        let inj_reject : Option RejectedRec :=
          match inj_status with
          | some status =>
              if status ∈ cfg.excluded_statuses then
                some ⟨player_name, "Травма/статус", "Статус: " ++ status⟩
              else none
          | none => none
        match inj_reject with
        | some r => some r
        | none =>
            if player_stats.is_available = false then
              some ⟨player_name, "Недоступен", pyOrStr player_stats.injury_status "Неизвестная причина"⟩
            else none

/-- `PlayerFilter.filter_players`: the loop over the input lines, returning
`(accepted, rejected)` in input order. -/
def filter_players (cfg : FilterConfig) (lines : List PlayerLine)
    (stats : List (String × PlayerStats))
    (injury_report : Option (List (String × String))) :
    List PlayerLine × List RejectedRec :=
  match lines with
  | [] => ([], [])
  | line :: rest =>
      let tail := filter_players cfg rest stats injury_report
      match filter_one cfg stats injury_report line with
      | none => (line :: tail.1, tail.2)
      | some r => (tail.1, r :: tail.2)

/-- `StabilityAnalyzer._calculate_stability_score`: the weighted sum of the
four components, each except the hit-rate one clamped into `[0,100]`,
rounded to one decimal. -/
def calculate_stability_score (cfg : StabilityConfig)
    (std_pts cv_pts cv_min hit_rate : ℚ) : ℚ :=
  let std_component := max 0 (min 100 ((8 - std_pts) / 5 * 100))
  let min_component := max 0 (min 100 ((20 / 100 - cv_min) / (15 / 100) * 100))
  let cv_component := max 0 (min 100 ((30 / 100 - cv_pts) / (20 / 100) * 100))
  let hit_component := hit_rate * 100
  round1 (std_component * cfg.weight_std_dev
    + min_component * cfg.weight_minutes_consistency
    + cv_component * cfg.weight_usage_consistency
    + hit_component * cfg.weight_hit_rate)

/-- `StabilityAnalyzer._determine_risk_level`. -/
def determine_risk_level (cv_pts std_pts stability_score : ℚ) : String :=
  if stability_score ≥ 70 ∧ cv_pts < 20 / 100 then "low"
  else if stability_score ≥ 50 ∧ cv_pts < 25 / 100 then "medium"
  else "high"

/-- `StabilityAnalyzer.analyze`: stability metrics for one (player, line)
pair.  The hit-rate divisions raise Python's `ZeroDivisionError` when a
game window is empty (`numpy` mean/std only warn and produce junk, which
never escapes because the division raises first); the raised error is the
bare interpreter message, modelled as `.error "division by zero"`. -/
def analyze (sqrtQ : ℚ → ℚ) (cfg : StabilityConfig)
    (stats : PlayerStats) (line : PlayerLine) : Except String StabilityMetrics :=
  let pts_data := stats.last_10_games.map (·.pts)
  let mean_pts := meanQ pts_data
  let std_pts := stdQ sqrtQ pts_data
  let cv_pts := if mean_pts > 0 then std_pts / mean_pts else 1
  let min_data := stats.last_10_games.map (·.min)
  let mean_min := meanQ min_data
  let std_min := stdQ sqrtQ min_data
  let cv_min := if mean_min > 0 then std_min / mean_min else 1
  let line_value := line.line_points
  let pts_5 := stats.last_5_games.map (·.pts)
  let pts_10 := stats.last_10_games.map (·.pts)
  if pts_5.length = 0 then .error "division by zero"
  else if pts_10.length = 0 then .error "division by zero"
  else
    let hit_rate_5 := ((pts_5.filter (fun p => p > line_value)).length : ℚ) / (pts_5.length : ℚ)
    let hit_rate_10 := ((pts_10.filter (fun p => p > line_value)).length : ℚ) / (pts_10.length : ℚ)
    let stability_score := calculate_stability_score cfg std_pts cv_pts cv_min hit_rate_10
    let risk_level := determine_risk_level cv_pts std_pts stability_score
    .ok
      { player_name := stats.player_name
        mean_pts := mean_pts
        std_pts := std_pts
        cv_pts := cv_pts
        mean_minutes := mean_min
        std_minutes := std_min
        cv_minutes := cv_min
        hit_rate_last_5 := hit_rate_5
        hit_rate_last_10 := hit_rate_10
        stability_score := stability_score
        is_stable := stability_score ≥ 60
        risk_level := risk_level }

/-- The trend record produced by `StabilityAnalyzer.get_trend`. -/
structure Trend where
  pts_avg_5 : ℚ
  pts_avg_10 : ℚ
  pts_trend_pct : ℚ
  pts_direction : String
  min_avg_5 : ℚ
  min_avg_10 : ℚ
  min_trend_pct : ℚ
  min_direction : String
deriving DecidableEq, Repr

/-- `StabilityAnalyzer.get_trend`. -/
def get_trend (stats : PlayerStats) : Trend :=
  let avg_5 := meanQ (stats.last_5_games.map (·.pts))
  let avg_10 := meanQ (stats.last_10_games.map (·.pts))
  let avg_min_5 := meanQ (stats.last_5_games.map (·.min))
  let avg_min_10 := meanQ (stats.last_10_games.map (·.min))
  let pts_trend_pct := if avg_10 > 0 then (avg_5 - avg_10) / avg_10 * 100 else 0
  let min_trend_pct := if avg_min_10 > 0 then (avg_min_5 - avg_min_10) / avg_min_10 * 100 else 0
  let pts_direction :=
    if pts_trend_pct > 5 then "up" else if pts_trend_pct < -5 then "down" else "stable"
  let min_direction :=
    if min_trend_pct > 3 then "up" else if min_trend_pct < -3 then "down" else "stable"
  { pts_avg_5 := avg_5
    pts_avg_10 := avg_10
    pts_trend_pct := pts_trend_pct
    pts_direction := pts_direction
    min_avg_5 := avg_min_5
    min_avg_10 := avg_min_10
    min_trend_pct := min_trend_pct
    min_direction := min_direction }

/-- `probability_model.BetType`. -/
inductive BetType where
  | OVER
  | UNDER
  | NO_VALUE
deriving DecidableEq, Repr

/-- `probability_model.ContextFactors` with the dataclass defaults. -/
structure ContextFactors where
  is_home : Bool := true
  is_back_to_back : Bool := false
  opponent_def_rating : ℚ := 112
  opponent_pace : ℚ := 100
  blowout_risk : ℚ := 0
  total_adjustment : ℚ := 0
deriving DecidableEq, Repr

/-- `probability_model.ProbabilityResult`. -/
structure ProbabilityResult where
  player_name : String
  line : ℚ
  p_over : ℚ
  p_under : ℚ
  implied_over : ℚ
  implied_under : ℚ
  edge_over : ℚ
  edge_under : ℚ
  recommended_bet : BetType
  edge_percent : ℚ
  confidence : ℚ
  reasons : List String
deriving DecidableEq, Repr

/-- `probability_model.ValueBet`. -/
structure ValueBet where
  player_name : String
  team : String
  opponent : String
  game_time : String
  line : ℚ
  bet_type : BetType
  model_prob : ℚ
  implied_prob : ℚ
  edge_percent : ℚ
  stability_score : ℚ
  risk_level : String
  confidence : ℚ
  reasons : List String
  rank : ℕ := 0
deriving DecidableEq, Repr

/-- `ProbabilityModel._calculate_base_probability`: the recency-weighted
blend of the last-5 and last-10 normal-model over-probabilities.  `ncdf`
stands for `scipy.stats.norm.cdf`. -/
def calculate_base_probability (sqrtQ ncdf : ℚ → ℚ)
    (stats : PlayerStats) (line : ℚ) : ℚ :=
  let pts_data := stats.last_10_games.map (·.pts)
  let mean_pts := meanQ pts_data
  let std_pts0 := stdQ sqrtQ pts_data
  let std_pts := if std_pts0 < 1 then 1 else std_pts0
  let z_score := (line - mean_pts) / std_pts
  let p_over := 1 - ncdf z_score
  let pts_5 := stats.last_5_games.map (·.pts)
  let mean_5 := meanQ pts_5
  let std_5 := if stdQ sqrtQ pts_5 > 1 then stdQ sqrtQ pts_5 else std_pts
  let z_score_5 := (line - mean_5) / std_5
  let p_over_5 := 1 - ncdf z_score_5
  6 / 10 * p_over_5 + 4 / 10 * p_over

/-- `ProbabilityModel._calculate_context_adjustment` (the write to
`context.total_adjustment` is dead in the analysed flows and is dropped). -/
def calculate_context_adjustment (cc : ContextConfig)
    (context : ContextFactors) (team_defense : Option TeamDefense) : ℚ :=
  let a1 := if context.is_home then cc.home_advantage else cc.road_penalty
  let a2 := if context.is_back_to_back then cc.back_to_back_penalty else 0
  let a3 :=
    match team_defense with
    | some td =>
        (if td.def_rating > cc.weak_defense_threshold then cc.weak_defense_bonus
         else if td.def_rating < cc.strong_defense_threshold then -(3 / 100) else 0)
        + (td.pace - 100) / 100 * cc.high_pace_bonus
    | none => 0
  let a4 := if context.blowout_risk > 1 / 2 then cc.blowout_risk_penalty * context.blowout_risk else 0
  a1 + a2 + a3 + a4

/-- `ProbabilityModel._calculate_stability_adjustment`. -/
def calculate_stability_adjustment (stability : StabilityMetrics) : ℚ :=
  if stability.hit_rate_last_10 > 7 / 10 then 3 / 100
  else if stability.hit_rate_last_10 < 3 / 10 then -(3 / 100)
  else if stability.cv_pts > 25 / 100 then -(2 / 100)
  else 0

/-- `ProbabilityModel._determine_best_bet`. -/
def determine_best_bet (v : ValueConfig) (edge_over edge_under : ℚ) :
    BetType × ℚ :=
  let min_edge := v.min_edge_percent / 100
  if edge_over ≥ min_edge ∧ edge_over > edge_under then (BetType.OVER, edge_over * 100)
  else if edge_under ≥ min_edge ∧ edge_under > edge_over then (BetType.UNDER, edge_under * 100)
  else (BetType.NO_VALUE, max edge_over edge_under * 100)

/-- `ProbabilityModel._calculate_confidence`. -/
def calculate_confidence (stability : StabilityMetrics)
    (edge_percent : ℚ) (stats : PlayerStats) : ℚ :=
  let c1 := 1 / 2 + (stability.stability_score - 50) / 200
  let games_factor := min ((stats.games_played : ℚ) / 30) 1 * (1 / 10)
  let c2 := c1 + games_factor
  let c3 := c2 + (if edge_percent > 15 then -(1 / 10) else 0)
  let c4 := c3 +
    (if stability.cv_pts < 15 / 100 then 1 / 10
     else if stability.cv_pts > 25 / 100 then -(1 / 10) else 0)
  clipQ c4 (3 / 10) (9 / 10)

/-- `ProbabilityModel._generate_reasons`: the ordered conditional list of
human-readable justification strings. -/
def generate_reasons (stats : PlayerStats) (line : ℚ)
    (stability : StabilityMetrics) (context : ContextFactors)
    (bet_type : BetType) : List String :=
  let avg_pts := stability.mean_pts
  let r1 : List String :=
    match bet_type with
    | BetType.OVER =>
        (if avg_pts > line then ["Среднее (" ++ fmtQ avg_pts ++ ") выше линии (" ++ fmtQ line ++ ")"] else [])
        ++ (let over_count := pyInt (stability.hit_rate_last_10 * 10)
            if over_count ≥ 7 then [toString over_count ++ " из 10 последних игр — OVER"] else [])
    | BetType.UNDER =>
        (if avg_pts < line then ["Среднее (" ++ fmtQ avg_pts ++ ") ниже линии (" ++ fmtQ line ++ ")"] else [])
        ++ (let under_count := pyInt ((1 - stability.hit_rate_last_10) * 10)
            if under_count ≥ 7 then [toString under_count ++ " из 10 последних игр — UNDER"] else [])
    | BetType.NO_VALUE => []
  let r2 := if stability.is_stable then ["Высокая стабильность (score: " ++ fmtQ stability.stability_score ++ ")"] else []
  let r3 := if stability.mean_minutes ≥ 34 then ["Стабильные минуты (" ++ fmtQ stability.mean_minutes ++ "+ MPG)"] else []
  let r4 := if context.is_home ∧ bet_type = BetType.OVER then ["Домашняя игра (+)"] else []
  let r5 := if context.is_back_to_back then ["Back-to-back (−)"] else []
  let r6 := if stability.cv_pts < 18 / 100 then ["Низкая дисперсия результатов"] else []
  r1 ++ r2 ++ r3 ++ r4 ++ r5 ++ r6

/-- `ProbabilityModel.calculate_probability`: the main entry point of the
probability model. -/
def calculate_probability (sqrtQ ncdf : ℚ → ℚ) (cc : ContextConfig)
    (v : ValueConfig) (stats : PlayerStats) (line : PlayerLine)
    (stability : StabilityMetrics) (context : Option ContextFactors)
    (team_defense : Option TeamDefense) : ProbabilityResult :=
  let line_value := line.line_points
  let base_p_over := calculate_base_probability sqrtQ ncdf stats line_value
  let ctx := context.getD { is_home := line.is_home }
  let context_adjustment := calculate_context_adjustment cc ctx team_defense
  let stability_adjustment := calculate_stability_adjustment stability
  let p_over := clipQ (base_p_over + context_adjustment + stability_adjustment) (5 / 100) (95 / 100)
  let p_under := 1 - p_over
  let implied_over := line.over_implied_prob
  let implied_under := line.under_implied_prob
  let edge_over := p_over - implied_over
  let edge_under := p_under - implied_under
  let best := determine_best_bet v edge_over edge_under
  let confidence := calculate_confidence stability |best.2| stats
  let reasons := generate_reasons stats line_value stability ctx best.1
  { player_name := stats.player_name
    line := line_value
    p_over := p_over
    p_under := p_under
    implied_over := implied_over
    implied_under := implied_under
    edge_over := edge_over
    edge_under := edge_under
    recommended_bet := best.1
    edge_percent := best.2
    confidence := confidence
    reasons := reasons }

/-- Substring test on character lists (haskell-style scan), used to model
Python's `in` operator on strings. -/
def charsHave : List Char → List Char → Bool
  | _, [] => true
  | [], _ :: _ => false
  | c :: cs, needle => (needle.isPrefixOf (c :: cs)) || charsHave cs needle

/-- Python `needle in hay` on strings. -/
def strContains (hay needle : String) : Bool := charsHave hay.data needle.data

/-- The opponent-defense resolution at the top of the
`ValueDetector.detect_value_bets` loop: first entry of the (insertion
ordered) dict whose abbreviation occurs in the line's opponent text or
whose team name contains it; the `if team_defenses and line.opponent`
truthiness guard is kept. -/
def resolve_defense (team_defenses : Option (List (String × TeamDefense)))
    (opponent : String) : Option TeamDefense :=
  match team_defenses with
  | none => none
  | some defs =>
      if defs.isEmpty ∨ opponent = "" then none
      else (defs.find? (fun p => strContains opponent p.1 || strContains p.2.team_name opponent)).map (·.2)

/-- One analysed-pool item (the dict with keys `"line"`, `"stats"`,
`"stability"`, `"trend"` built by `analyze_player_pool`). -/
structure AnalyzedItem where
  line : PlayerLine
  stats : PlayerStats
  stability : StabilityMetrics
  trend : Trend
deriving DecidableEq, Repr

/-- The `ContextFactors` object built inside the `detect_value_bets` loop. -/
def item_context (team_defenses : Option (List (String × TeamDefense)))
    (line : PlayerLine) : ContextFactors :=
  let opponent_defense := resolve_defense team_defenses line.opponent
  { is_home := line.is_home
    is_back_to_back := false
    opponent_def_rating := (opponent_defense.map (·.def_rating)).getD 112
    opponent_pace := (opponent_defense.map (·.pace)).getD 100 }

/-- The `ProbabilityResult` computed for one item of the analysed pool
inside the `detect_value_bets` loop. -/
def item_prob (sqrtQ ncdf : ℚ → ℚ) (cc : ContextConfig) (v : ValueConfig)
    (team_defenses : Option (List (String × TeamDefense)))
    (item : AnalyzedItem) : ProbabilityResult :=
  calculate_probability sqrtQ ncdf cc v item.stats item.line item.stability
    (some (item_context team_defenses item.line))
    (resolve_defense team_defenses item.line.opponent)

/-- The `ValueBet` record built for a qualifying item of the analysed pool
(`rank` still `0`; ranks are assigned after sorting). -/
def value_bet_of (prob_result : ProbabilityResult) (item : AnalyzedItem) : ValueBet :=
  { player_name := item.stats.player_name
    team := if item.stats.team = "" then item.line.team else item.stats.team
    opponent := item.line.opponent
    game_time := item.line.game_time
    line := item.line.line_points
    bet_type := prob_result.recommended_bet
    model_prob := if prob_result.recommended_bet = BetType.OVER then prob_result.p_over else prob_result.p_under
    implied_prob := if prob_result.recommended_bet = BetType.OVER then prob_result.implied_over else prob_result.implied_under
    edge_percent := prob_result.edge_percent
    stability_score := item.stability.stability_score
    risk_level := item.stability.risk_level
    confidence := prob_result.confidence
    reasons := prob_result.reasons
    rank := 0 }

/-- The body of the `detect_value_bets` loop for one item: `some` of the
`ValueBet` when the nested value checks pass, `none` otherwise. -/
def detect_one (sqrtQ ncdf : ℚ → ℚ) (cc : ContextConfig) (v : ValueConfig)
    (team_defenses : Option (List (String × TeamDefense)))
    (item : AnalyzedItem) : Option ValueBet :=
  let prob_result := item_prob sqrtQ ncdf cc v team_defenses item
  if prob_result.recommended_bet ≠ BetType.NO_VALUE then
    if prob_result.edge_percent ≥ v.min_edge_percent then
      if prob_result.confidence ≥ v.min_confidence then
        some (value_bet_of prob_result item)
      else none
    else none
  else none

/-- Comparator of the `value_bets.sort(key=lambda x: x.edge_percent,
reverse=True)` call: Python's stable sort with a reversed single-float key
is the stable sort under this total relation. -/
def edgeDescB (a b : ValueBet) : Bool := decide (b.edge_percent ≤ a.edge_percent)

/-- The rank-assignment loop `for i, vb in enumerate(value_bets):
vb.rank = i + 1`, starting from index `i`. -/
def assign_ranks (i : ℕ) : List ValueBet → List ValueBet
  | [] => []
  | vb :: rest => { vb with rank := i + 1 } :: assign_ranks (i + 1) rest

/-- `ValueDetector.detect_value_bets`: filter the analysed pool through the
value checks, stable-sort by edge percent descending, assign 1-based
ranks, return the top-N. -/
def detect_value_bets (sqrtQ ncdf : ℚ → ℚ) (cc : ContextConfig)
    (v : ValueConfig) (analyzed_players : List AnalyzedItem)
    (team_defenses : Option (List (String × TeamDefense))) : List ValueBet :=
  let value_bets := analyzed_players.filterMap (detect_one sqrtQ ncdf cc v team_defenses)
  let sorted := value_bets.mergeSort edgeDescB
  let ranked := assign_ranks 0 sorted
  ranked.take v.top_n_results

/-- Comparator of the `analysis_results.sort(key=lambda x:
x["stability"].stability_score, reverse=True)` call in
`analyze_player_pool`. -/
def scoreDescB (a b : AnalyzedItem) : Bool :=
  decide (b.stability.stability_score ≤ a.stability.stability_score)

/-- The per-accepted-line loop of `analyze_player_pool`: look the stats up,
run the stability analysis (which can raise) and the trend computation. -/
def build_analysis (sqrtQ : ℚ → ℚ) (sc : StabilityConfig)
    (stats : List (String × PlayerStats)) :
    List PlayerLine → Except String (List AnalyzedItem)
  | [] => .ok []
  | line :: rest => do
      let player_stats ←
        match stats.lookup line.player_name with
        | some s => Except.ok s
        | none => Except.error "KeyError"
      let stability ← analyze sqrtQ sc player_stats line
      let tail ← build_analysis sqrtQ sc stats rest
      .ok ({ line := line, stats := player_stats, stability := stability,
             trend := get_trend player_stats } :: tail)

/-- The summary block of `analyze_player_pool`'s result. -/
structure PoolSummary where
  total_lines : ℕ
  accepted : ℕ
  rejected : ℕ
  avg_stability : ℚ
deriving DecidableEq, Repr

/-- The full result dict of `analyze_player_pool`. -/
structure PoolResult where
  analyzed : List AnalyzedItem
  rejected : List RejectedRec
  summary : PoolSummary
deriving DecidableEq, Repr

/-- `stability_analyzer.analyze_player_pool`: filter, per-player analysis,
stable sort by stability score descending, summary. -/
def analyze_player_pool (sqrtQ : ℚ → ℚ) (fc : FilterConfig)
    (sc : StabilityConfig) (lines : List PlayerLine)
    (stats : List (String × PlayerStats))
    (injury_report : Option (List (String × String))) :
    Except String PoolResult := do
  let filtered := filter_players fc lines stats injury_report
  let accepted_lines := filtered.1
  let rejected := filtered.2
  let analysis_results ← build_analysis sqrtQ sc stats accepted_lines
  let sorted := analysis_results.mergeSort scoreDescB
  .ok
    { analyzed := sorted
      rejected := rejected
      summary :=
        { total_lines := lines.length
          accepted := accepted_lines.length
          rejected := rejected.length
          avg_stability :=
            if analysis_results.isEmpty then 0
            else meanQ (sorted.map (·.stability.stability_score)) } }

/-- Upper bound of the clip. -/
theorem clipQ_le_hi (x lo hi : ℚ) : clipQ x lo hi ≤ hi := min_le_right _ _

/-- Lower bound of the clip (when the interval is non-degenerate). -/
theorem lo_le_clipQ (x lo hi : ℚ) (h : lo ≤ hi) : lo ≤ clipQ x lo hi :=
  le_min (le_max_right _ _) h

/-- Nonnegative inputs round to nonnegative one-decimal values. -/
theorem round1_nonneg {x : ℚ} (h : 0 ≤ x) : 0 ≤ round1 x := by
  unfold round1
  have h0 : ((0 : ℤ) : ℚ) ≤ (round (x * 10) : ℤ) := by
    have : round ((0 : ℚ)) ≤ round (x * 10) := by
      rw [round_eq, round_eq]
      exact Int.floor_le_floor (by linarith)
    simpa using this
  have : (0 : ℚ) ≤ ((round (x * 10) : ℤ) : ℚ) := by exact_mod_cast h0
  positivity

/-- Inputs at most 100 round to one-decimal values at most 100. -/
theorem round1_le_100 {x : ℚ} (h : x ≤ 100) : round1 x ≤ 100 := by
  unfold round1
  have h0 : round (x * 10) ≤ round ((1000 : ℚ)) := by
    rw [round_eq, round_eq]
    exact Int.floor_le_floor (by linarith)
  have h1 : round ((1000 : ℚ)) = 1000 := by
    have := round_intCast (α := ℚ) 1000
    simpa using this
  have h2 : ((round (x * 10) : ℤ) : ℚ) ≤ 1000 := by
    rw [h1] at h0
    exact_mod_cast h0
  linarith

/-- C1: for every input, the result of `ProbabilityModel.calculate_probability`
has `p_over + p_under = 1` exactly, both probabilities lie in `[0.05, 0.95]`,
`p_over` is the clip of `base + context_adj + stability_adj` into that
interval and `p_under` is its complement. -/
theorem calculate_probability_complement_clip
    (sqrtQ ncdf : ℚ → ℚ) (cc : ContextConfig) (v : ValueConfig)
    (stats : PlayerStats) (line : PlayerLine) (stability : StabilityMetrics)
    (context : Option ContextFactors) (team_defense : Option TeamDefense) :
    let r := calculate_probability sqrtQ ncdf cc v stats line stability context team_defense
    r.p_over + r.p_under = 1 ∧
    5 / 100 ≤ r.p_over ∧ r.p_over ≤ 95 / 100 ∧
    5 / 100 ≤ r.p_under ∧ r.p_under ≤ 95 / 100 ∧
    r.p_over = clipQ
      (calculate_base_probability sqrtQ ncdf stats line.line_points
        + calculate_context_adjustment cc (context.getD { is_home := line.is_home }) team_defense
        + calculate_stability_adjustment stability) (5 / 100) (95 / 100) ∧
    r.p_under = 1 - r.p_over := by
  intro r
  have hover : r.p_over = clipQ
      (calculate_base_probability sqrtQ ncdf stats line.line_points
        + calculate_context_adjustment cc (context.getD { is_home := line.is_home }) team_defense
        + calculate_stability_adjustment stability) (5 / 100) (95 / 100) := rfl
  have hunder : r.p_under = 1 - r.p_over := rfl
  have h1 : 5 / 100 ≤ r.p_over := by
    rw [hover]; exact lo_le_clipQ _ _ _ (by norm_num)
  have h2 : r.p_over ≤ 95 / 100 := by
    rw [hover]; exact clipQ_le_hi _ _ _
  refine ⟨by rw [hunder]; ring, h1, h2, ?_, ?_, hover, hunder⟩
  · rw [hunder]; linarith
  · rw [hunder]; linarith

/-- C3: characterisation of `ProbabilityModel._determine_best_bet`: OVER
exactly when `edge_over` meets the minimum edge and beats `edge_under`
(with `edge_percent = edge_over × 100`), UNDER symmetrically, otherwise
NO_VALUE with `edge_percent = max(edge_over, edge_under) × 100`; in
particular two zero edges give NO_VALUE. -/
theorem determine_best_bet_spec (v : ValueConfig) (edge_over edge_under : ℚ) :
    (((determine_best_bet v edge_over edge_under).1 = BetType.OVER ∧
        (determine_best_bet v edge_over edge_under).2 = edge_over * 100) ↔
      (edge_over ≥ v.min_edge_percent / 100 ∧ edge_over > edge_under)) ∧
    (((determine_best_bet v edge_over edge_under).1 = BetType.UNDER ∧
        (determine_best_bet v edge_over edge_under).2 = edge_under * 100) ↔
      (edge_under ≥ v.min_edge_percent / 100 ∧ edge_under > edge_over)) ∧
    ((determine_best_bet v edge_over edge_under).1 = BetType.NO_VALUE →
      (determine_best_bet v edge_over edge_under).2 = max edge_over edge_under * 100) ∧
    (determine_best_bet v 0 0).1 = BetType.NO_VALUE := by
  unfold determine_best_bet
  dsimp only
  refine ⟨?_, ?_, ?_, ?_⟩
  · split_ifs with h1 h2
    · exact ⟨fun _ => h1, fun _ => ⟨rfl, rfl⟩⟩
    · exact ⟨fun hc => absurd hc.1 (by decide), fun hc => absurd hc h1⟩
    · exact ⟨fun hc => absurd hc.1 (by decide), fun hc => absurd hc h1⟩
  · split_ifs with h1 h2
    · exact ⟨fun hc => absurd hc.1 (by decide), fun hc => absurd hc.2 (lt_asymm h1.2)⟩
    · exact ⟨fun _ => h2, fun _ => ⟨rfl, rfl⟩⟩
    · exact ⟨fun hc => absurd hc.1 (by decide), fun hc => absurd hc h2⟩
  · split_ifs with h1 h2
    · exact fun hc => absurd hc (by decide)
    · exact fun hc => absurd hc (by decide)
    · exact fun _ => rfl
  · split_ifs with h1
    · exact absurd h1.2 (lt_irrefl 0)
    · rfl

/-- Clamp into `[0, 100]` as the claim states it (spec side). -/
def clamp100 (x : ℚ) : ℚ := max 0 (min 100 x)

/-- The stability-score formula as the claim states it (spec side): the
four components, the hit-rate one included, each clamped into `[0,100]`,
weighted by `0.35 / 0.30 / 0.20 / 0.15`, and rounded to one decimal. -/
def stability_score_claim (std_pts cv_pts cv_minutes hit_rate : ℚ) : ℚ :=
  round1 (35 / 100 * clamp100 ((8 - std_pts) / 5 * 100)
    + 30 / 100 * clamp100 ((20 / 100 - cv_minutes) / (15 / 100) * 100)
    + 20 / 100 * clamp100 ((30 / 100 - cv_pts) / (20 / 100) * 100)
    + 15 / 100 * clamp100 (hit_rate * 100))


/-- C4: with the default weights, for every variance input (however
pathological) and every hit rate in `[0,1]` (hit rates are fractions of a
game window by construction), the stability score equals the claim's
clamped-weighted-sum formula — the clamp on the hit-rate component being
vacuous on `[0,1]` — and the resulting score always lies in `[0, 100]`. -/
theorem calculate_stability_score_spec (std_pts cv_pts cv_minutes hit_rate : ℚ)
    (h0 : 0 ≤ hit_rate) (h1 : hit_rate ≤ 1) :
    calculate_stability_score defaultStabilityConfig std_pts cv_pts cv_minutes hit_rate
      = stability_score_claim std_pts cv_pts cv_minutes hit_rate ∧
    0 ≤ calculate_stability_score defaultStabilityConfig std_pts cv_pts cv_minutes hit_rate ∧
    calculate_stability_score defaultStabilityConfig std_pts cv_pts cv_minutes hit_rate ≤ 100 := by
  have hclamp : clamp100 (hit_rate * 100) = hit_rate * 100 := by
    unfold clamp100
    rw [min_eq_right (by linarith), max_eq_right (by linarith)]
  have heq : calculate_stability_score defaultStabilityConfig std_pts cv_pts cv_minutes hit_rate
      = stability_score_claim std_pts cv_pts cv_minutes hit_rate := by
    unfold calculate_stability_score stability_score_claim defaultStabilityConfig
    rw [hclamp]
    unfold clamp100
    dsimp only
    apply congrArg round1
    ring
  have hclamp_le : ∀ x : ℚ, clamp100 x ≤ 100 := fun _ => max_le (by norm_num) (min_le_left _ _)
  have hclamp_ge : ∀ x : ℚ, 0 ≤ clamp100 x := fun _ => le_max_left _ _
  have hb : 0 ≤ stability_score_claim std_pts cv_pts cv_minutes hit_rate ∧
      stability_score_claim std_pts cv_pts cv_minutes hit_rate ≤ 100 := by
    unfold stability_score_claim
    constructor
    · apply round1_nonneg
      have a1 := hclamp_ge ((8 - std_pts) / 5 * 100)
      have a2 := hclamp_ge ((20 / 100 - cv_minutes) / (15 / 100) * 100)
      have a3 := hclamp_ge ((30 / 100 - cv_pts) / (20 / 100) * 100)
      have a4 := hclamp_ge (hit_rate * 100)
      linarith
    · apply round1_le_100
      have a1 := hclamp_le ((8 - std_pts) / 5 * 100)
      have a2 := hclamp_le ((20 / 100 - cv_minutes) / (15 / 100) * 100)
      have a3 := hclamp_le ((30 / 100 - cv_pts) / (20 / 100) * 100)
      have a4 := hclamp_le (hit_rate * 100)
      linarith
  exact ⟨heq, heq ▸ hb.1, heq ▸ hb.2⟩

/-- Witness for C4 at `std = 2`, `cv_pts = 0.1`, `cv_minutes = 0.1`,
`hit_rate = 0.8` (score `0.35·100 + 0.30·(200/3) + 0.20·100 + 0.15·80 = 87`). -/
theorem calculate_stability_score_spec_witness :
    (calculate_stability_score defaultStabilityConfig 2 (1 / 10) (1 / 10) (8 / 10)
      = stability_score_claim 2 (1 / 10) (1 / 10) (8 / 10) ∧
    0 ≤ calculate_stability_score defaultStabilityConfig 2 (1 / 10) (1 / 10) (8 / 10) ∧
    calculate_stability_score defaultStabilityConfig 2 (1 / 10) (1 / 10) (8 / 10) ≤ 100) ∧
    calculate_stability_score defaultStabilityConfig 2 (1 / 10) (1 / 10) (8 / 10) = 87 :=
  ⟨calculate_stability_score_spec 2 (1 / 10) (1 / 10) (8 / 10) (by norm_num) (by norm_num),
   by
    unfold calculate_stability_score defaultStabilityConfig round1
    dsimp only
    rw [round_eq]
    norm_num⟩

/-- The context-adjustment formula as the claim states it (spec side): the
sum of the home/road, back-to-back, defense, pace and blowout terms, the
defense and pace terms computed from the opponent rating and pace carried
in the context itself (thresholds at their defaults 115 / 108). -/
def context_adjustment_claim (cc : ContextConfig) (context : ContextFactors) : ℚ :=
  (if context.is_home then cc.home_advantage else cc.road_penalty)
  + (if context.is_back_to_back then cc.back_to_back_penalty else 0)
  + (if context.opponent_def_rating > 115 then cc.weak_defense_bonus
     else if context.opponent_def_rating < 108 then -(3 / 100) else 0)
  + (context.opponent_pace - 100) / 100 * cc.high_pace_bonus
  + (if context.blowout_risk > 1 / 2 then cc.blowout_risk_penalty * context.blowout_risk else 0)

/-- C6: whenever the context carries exactly the opponent rating and pace
that the resolved team defense supplies (the league-average defaults 112
and 100 when it is absent) — which is how `detect_value_bets` always
builds it — the context adjustment equals the claim's five-term sum over
the values carried in the context, however they were supplied. -/
theorem calculate_context_adjustment_spec (cc : ContextConfig)
    (context : ContextFactors) (team_defense : Option TeamDefense)
    (hthr : cc.weak_defense_threshold = 115 ∧ cc.strong_defense_threshold = 108)
    (hrating : context.opponent_def_rating = ((team_defense.map (·.def_rating)).getD 112))
    (hpace : context.opponent_pace = ((team_defense.map (·.pace)).getD 100)) :
    calculate_context_adjustment cc context team_defense
      = context_adjustment_claim cc context := by
  cases team_defense with
  | none =>
      simp only [Option.map_none', Option.getD_none] at hrating hpace
      unfold calculate_context_adjustment context_adjustment_claim
      rw [hrating, hpace]
      norm_num
  | some td =>
      simp only [Option.map_some', Option.getD_some] at hrating hpace
      unfold calculate_context_adjustment context_adjustment_claim
      rw [hrating, hpace, hthr.1, hthr.2]
      ring

/-- Witness for C6 with the default configuration, the default context
(league-average 112 rating and 100 pace) and no resolved team defense;
the adjustment is the home-advantage term alone. -/
theorem calculate_context_adjustment_spec_witness :
    calculate_context_adjustment defaultContextConfig {} none
      = context_adjustment_claim defaultContextConfig {} ∧
    calculate_context_adjustment defaultContextConfig {} none = 3 / 100 :=
  ⟨calculate_context_adjustment_spec defaultContextConfig {} none
      ⟨rfl, rfl⟩ rfl rfl,
   by
    unfold calculate_context_adjustment defaultContextConfig
    norm_num⟩

/-- The base-probability formula exactly as the claim states it (spec
side): `0.6 × P_5 + 0.4 × P_10` with the survival function `1 − ncdf`,
the last-10 population std floored at `1.0`, and the last-5 std falling
back to the floored last-10 std exactly when it is strictly below `1.0`. -/
def base_probability_claim (sqrtQ ncdf : ℚ → ℚ)
    (stats : PlayerStats) (line : ℚ) : ℚ :=
  let pts10 := stats.last_10_games.map (·.pts)
  let mean10 := meanQ pts10
  let std10 := max (stdQ sqrtQ pts10) 1
  let p10 := 1 - ncdf ((line - mean10) / std10)
  let pts5 := stats.last_5_games.map (·.pts)
  let mean5 := meanQ pts5
  let std5raw := stdQ sqrtQ pts5
  let std5 := if std5raw < 1 then std10 else std5raw
  let p5 := 1 - ncdf ((line - mean5) / std5)
  6 / 10 * p5 + 4 / 10 * p10

/-- The amended base-probability formula: identical to the claim's except
that the last-5 std falls back to the floored last-10 std exactly when it
is at most `1.0` (the source keeps the last-5 std only when it is
strictly greater than `1`). -/
def base_probability_amended (sqrtQ ncdf : ℚ → ℚ)
    (stats : PlayerStats) (line : ℚ) : ℚ :=
  let pts10 := stats.last_10_games.map (·.pts)
  let mean10 := meanQ pts10
  let std10 := max (stdQ sqrtQ pts10) 1
  let p10 := 1 - ncdf ((line - mean10) / std10)
  let pts5 := stats.last_5_games.map (·.pts)
  let mean5 := meanQ pts5
  let std5raw := stdQ sqrtQ pts5
  let std5 := if std5raw ≤ 1 then std10 else std5raw
  let p5 := 1 - ncdf ((line - mean5) / std5)
  6 / 10 * p5 + 4 / 10 * p10

/-- Concrete player stats whose last-5 window has population std exactly
`1` (variance `1`) and whose last-10 window has population std `9/8`
(variance `81/64`); the last-5 window is a prefix of the last-10 one. -/
def statsC7 : PlayerStats :=
  { player_name := "Test Player"
    player_id := "1"
    team := "AAA"
    season_ppg := 20
    season_mpg := 30
    season_usage := 25
    games_played := 10
    last_5_games := [⟨43 / 2, 30⟩, ⟨37 / 2, 30⟩, ⟨41 / 2, 30⟩, ⟨39 / 2, 30⟩, ⟨20, 30⟩]
    last_10_games := [⟨43 / 2, 30⟩, ⟨37 / 2, 30⟩, ⟨41 / 2, 30⟩, ⟨39 / 2, 30⟩, ⟨20, 30⟩,
      ⟨87 / 4, 30⟩, ⟨87 / 4, 30⟩, ⟨87 / 4, 30⟩, ⟨87 / 4, 30⟩, ⟨87 / 4, 30⟩]
    avg_min_last_10 := 30 }

/-- C7 counterexample: on `statsC7` at line `22` the last-5 std is exactly
`1`, so the source falls back to the last-10 std (`9/8`) while the
claim's formula (fallback only strictly below `1.0`) keeps the last-5
std; the two values differ. -/
theorem base_probability_claim_counterexample :
    calculate_base_probability sqrtTable ncdfLin statsC7 22 = 53 / 150 ∧
    base_probability_claim sqrtTable ncdfLin statsC7 22 = 17 / 50 ∧
    calculate_base_probability sqrtTable ncdfLin statsC7 22
      ≠ base_probability_claim sqrtTable ncdfLin statsC7 22 := by
  have h1 : calculate_base_probability sqrtTable ncdfLin statsC7 22 = 53 / 150 := by
    unfold calculate_base_probability statsC7 stdQ popVar meanQ sqrtTable ncdfLin
    norm_num
  have h2 : base_probability_claim sqrtTable ncdfLin statsC7 22 = 17 / 50 := by
    unfold base_probability_claim statsC7 stdQ popVar meanQ sqrtTable ncdfLin
    norm_num
  refine ⟨h1, h2, ?_⟩
  rw [h1, h2]
  norm_num

/-- C7 amended: for every square-root and CDF instantiation and every
stats record with non-empty last-5 and last-10 windows, the base
probability is the claim's blend formula with the fallback condition
amended from `std_5 < 1` to `std_5 ≤ 1`. -/
theorem calculate_base_probability_amended_spec (sqrtQ ncdf : ℚ → ℚ)
    (stats : PlayerStats) (line : ℚ)
    (h5 : stats.last_5_games ≠ []) (h10 : stats.last_10_games ≠ []) :
    calculate_base_probability sqrtQ ncdf stats line
      = base_probability_amended sqrtQ ncdf stats line := by
  unfold calculate_base_probability base_probability_amended
  dsimp only
  have hmax : (if stdQ sqrtQ (stats.last_10_games.map (·.pts)) < 1 then (1 : ℚ)
      else stdQ sqrtQ (stats.last_10_games.map (·.pts)))
      = max (stdQ sqrtQ (stats.last_10_games.map (·.pts))) 1 := by
    split_ifs with h
    · rw [max_eq_right (le_of_lt h)]
    · rw [max_eq_left (not_lt.mp h)]
  rw [hmax]
  by_cases h : stdQ sqrtQ (stats.last_5_games.map (·.pts)) > 1
  · rw [if_pos h, if_neg (not_le.mpr h)]
  · rw [if_neg h, if_pos (not_lt.mp h)]

/-- Witness for the amended C7 theorem at the concrete `statsC7` / line 22
input (both windows non-empty). -/
theorem calculate_base_probability_amended_spec_witness :
    calculate_base_probability sqrtTable ncdfLin statsC7 22
      = base_probability_amended sqrtTable ncdfLin statsC7 22 :=
  calculate_base_probability_amended_spec sqrtTable ncdfLin statsC7 22
    (by simp [statsC7]) (by simp [statsC7])

/-- A concrete line used by the error-handling and pool evaluations. -/
def lineC8 : PlayerLine :=
  { player_name := "LeBron James"
    player_id := none
    team := "LAL"
    opponent := "BOS"
    game_id := "G1"
    game_time := "2025-01-01 19:00"
    is_home := true
    line_points := 51 / 2
    over_odds := -110
    under_odds := -110
    over_implied_prob := 11 / 21
    under_implied_prob := 11 / 21 }

/-- Concrete player stats with both recent-game windows empty. -/
def statsC8 : PlayerStats :=
  { player_name := "LeBron James"
    player_id := "23"
    team := "LAL"
    season_ppg := 25
    season_mpg := 35
    season_usage := 30
    games_played := 0
    last_5_games := []
    last_10_games := []
    avg_min_last_10 := 35 }

/-- C8: on empty game windows `StabilityAnalyzer.analyze` does fail fast
(the hit-rate division raises) and returns no NaN-filled metrics, but the
raised error is the interpreter's bare `division by zero`, which does not
mention the player (whose name is non-empty) nor the violated
non-emptiness precondition — against the claim's required behaviour. -/
theorem analyze_empty_window_generic_error :
    analyze sqrtTable defaultStabilityConfig statsC8 lineC8
      = Except.error "division by zero" ∧
    strContains "division by zero" statsC8.player_name = false ∧
    statsC8.player_name ≠ "" := by
  refine ⟨rfl, ?_, by decide⟩
  decide

/-- The five eligibility gates of the claim, in their fixed order. -/
inductive Gate where
  | stats_missing
  | low_minutes
  | insufficient_sample
  | injury_excluded
  | unavailable
deriving DecidableEq, Repr

/-- Whether the injury gate fires: an injury-report entry exists for the
player and its status is in the excluded set. -/
def injury_excludedB (cfg : FilterConfig)
    (injury_report : Option (List (String × String))) (name : String) : Bool :=
  match injury_lookup injury_report name with
  | some status => status ∈ cfg.excluded_statuses
  | none => false

/-- The first failing gate for one line, as the claim describes the
cascade (spec side): stats present, minutes, games played, injury status,
availability; `none` when every gate passes. -/
def first_failing_gate (cfg : FilterConfig) (stats : List (String × PlayerStats))
    (injury_report : Option (List (String × String))) (line : PlayerLine) :
    Option Gate :=
  match stats.lookup line.player_name with
  | none => some .stats_missing
  | some ps =>
      if ps.avg_min_last_10 < cfg.min_minutes then some .low_minutes
      else if ps.games_played < cfg.min_games_played then some .insufficient_sample
      else if injury_excludedB cfg injury_report line.player_name then some .injury_excluded
      else if ps.is_available = false then some .unavailable
      else none

/-- The reason code the source attaches to each failing gate. -/
def reason_of : Gate → String
  | .stats_missing => "Нет статистики"
  | .low_minutes => "Мало минут"
  | .insufficient_sample => "Мало игр"
  | .injury_excluded => "Травма/статус"
  | .unavailable => "Недоступен"

/-- A string with a non-empty left part stays non-empty under append. -/
theorem str_append_ne_empty (s t : String) (h : s ≠ "") : s ++ t ≠ "" := by
  intro he
  apply h
  have hd := congrArg String.data he
  rw [String.data_append] at hd
  exact String.ext (List.append_eq_nil.mp hd).1

/-- Python's `s or default` is non-empty when the default is. -/
theorem pyOrStr_ne_empty (s : Option String) (t : String) (h : t ≠ "") :
    pyOrStr s t ≠ "" := by
  cases s with
  | none => exact h
  | some s =>
      simp only [pyOrStr]
      split_ifs with hs
      · exact h
      · exact hs

/-- The outcome of the per-line gate cascade is the record of the first
failing gate: same acceptance, the player's name, and the reason code of
that gate. -/
theorem filter_one_gate (cfg : FilterConfig) (stats : List (String × PlayerStats))
    (injury_report : Option (List (String × String))) (line : PlayerLine) :
    ((filter_one cfg stats injury_report line).map fun r => (r.player, r.reason))
      = ((first_failing_gate cfg stats injury_report line).map
          fun g => (line.player_name, reason_of g)) := by
  unfold filter_one first_failing_gate injury_excludedB
  dsimp only
  cases hs : List.lookup line.player_name stats with
  | none => rfl
  | some ps =>
      dsimp only
      by_cases h1 : ps.avg_min_last_10 < cfg.min_minutes
      · simp only [if_pos h1]
        rfl
      · simp only [if_neg h1]
        by_cases h2 : ps.games_played < cfg.min_games_played
        · simp only [if_pos h2]
          rfl
        · simp only [if_neg h2]
          cases hi : injury_lookup injury_report line.player_name with
          | none =>
              dsimp only
              by_cases h4 : ps.is_available = false
              · simp only [if_pos h4]
                rfl
              · simp only [if_neg h4]
                rfl
          | some status =>
              dsimp only
              simp only [decide_eq_true_eq]
              by_cases h3 : status ∈ cfg.excluded_statuses
              · simp only [if_pos h3]
                rfl
              · simp only [if_neg h3]
                by_cases h4 : ps.is_available = false
                · simp only [if_pos h4]
                  rfl
                · simp only [if_neg h4]
                  rfl

/-- Every rejection record the gate cascade produces carries a non-empty
reason and a non-empty detail string. -/
theorem filter_one_nonempty (cfg : FilterConfig) (stats : List (String × PlayerStats))
    (injury_report : Option (List (String × String))) (line : PlayerLine)
    (r : RejectedRec) (h : filter_one cfg stats injury_report line = some r) :
    r.reason ≠ "" ∧ r.details ≠ "" := by
  unfold filter_one at h
  dsimp only at h
  cases hs : List.lookup line.player_name stats with
  | none =>
      rw [hs] at h
      dsimp only at h
      cases h
      exact ⟨show ("Нет статистики" : String) ≠ "" by decide,
        show ("Игрок не найден в базе данных" : String) ≠ "" by decide⟩
  | some ps =>
      rw [hs] at h
      dsimp only at h
      by_cases h1 : ps.avg_min_last_10 < cfg.min_minutes
      · rw [if_pos h1] at h
        cases h
        refine ⟨show ("Мало минут" : String) ≠ "" by decide, ?_⟩
        exact str_append_ne_empty _ (fmtQ cfg.min_minutes)
          (str_append_ne_empty _ " < " (str_append_ne_empty "Avg MIN: "
            (fmtQ ps.avg_min_last_10) (show ("Avg MIN: " : String) ≠ "" by decide)))
      · rw [if_neg h1] at h
        by_cases h2 : ps.games_played < cfg.min_games_played
        · rw [if_pos h2] at h
          cases h
          refine ⟨show ("Мало игр" : String) ≠ "" by decide, ?_⟩
          exact str_append_ne_empty _ (toString cfg.min_games_played)
            (str_append_ne_empty _ " < " (str_append_ne_empty "Игр: "
              (toString ps.games_played) (show ("Игр: " : String) ≠ "" by decide)))
        · rw [if_neg h2] at h
          cases hi : injury_lookup injury_report line.player_name with
          | none =>
              rw [hi] at h
              dsimp only at h
              by_cases h4 : ps.is_available = false
              · rw [if_pos h4] at h
                cases h
                exact ⟨show ("Недоступен" : String) ≠ "" by decide,
                  pyOrStr_ne_empty ps.injury_status "Неизвестная причина"
                    (show ("Неизвестная причина" : String) ≠ "" by decide)⟩
              · rw [if_neg h4] at h
                exact Option.noConfusion h
          | some status =>
              rw [hi] at h
              dsimp only at h
              by_cases h3 : status ∈ cfg.excluded_statuses
              · rw [if_pos h3] at h
                dsimp only at h
                cases h
                exact ⟨show ("Травма/статус" : String) ≠ "" by decide,
                  str_append_ne_empty "Статус: " status
                    (show ("Статус: " : String) ≠ "" by decide)⟩
              · rw [if_neg h3] at h
                dsimp only at h
                by_cases h4 : ps.is_available = false
                · rw [if_pos h4] at h
                  cases h
                  exact ⟨show ("Недоступен" : String) ≠ "" by decide,
                    pyOrStr_ne_empty ps.injury_status "Неизвестная причина"
                      (show ("Неизвестная причина" : String) ≠ "" by decide)⟩
                · rw [if_neg h4] at h
                  exact Option.noConfusion h

/-- C5: `PlayerFilter.filter_players` partitions its input: the accepted
output is exactly the in-order sublist of lines whose gate cascade
passes, the rejected output carries — in input order — one record per
failing line whose player and reason code are those of that line's first
failing gate (in the fixed gate order), and every rejected record has a
non-empty reason and a non-empty detail string. -/
theorem filter_players_spec (cfg : FilterConfig) (lines : List PlayerLine)
    (stats : List (String × PlayerStats))
    (injury_report : Option (List (String × String))) :
    (filter_players cfg lines stats injury_report).1
      = lines.filter (fun l => (first_failing_gate cfg stats injury_report l).isNone) ∧
    ((filter_players cfg lines stats injury_report).2.map fun r => (r.player, r.reason))
      = lines.filterMap (fun l => (first_failing_gate cfg stats injury_report l).map
          fun g => (l.player_name, reason_of g)) ∧
    ∀ r ∈ (filter_players cfg lines stats injury_report).2,
      r.reason ≠ "" ∧ r.details ≠ "" := by
  induction lines with
  | nil => exact ⟨rfl, rfl, fun r hr => absurd hr (List.not_mem_nil r)⟩
  | cons l rest ih =>
      obtain ⟨ih1, ih2, ih3⟩ := ih
      have hg := filter_one_gate cfg stats injury_report l
      cases hf : filter_one cfg stats injury_report l with
      | none =>
          simp only [hf, Option.map_none'] at hg
          have hffg : first_failing_gate cfg stats injury_report l = none := by
            cases hgg2 : first_failing_gate cfg stats injury_report l with
            | none => rfl
            | some gg =>
                rw [hgg2, Option.map_some'] at hg
                exact Option.noConfusion hg
          refine ⟨?_, ?_, ?_⟩
          · simp only [filter_players, hf]
            simp [List.filter_cons, hffg, ih1]
          · simp only [filter_players, hf]
            simp [List.filterMap_cons, hffg, ih2]
          · intro r' hr'
            simp only [filter_players, hf] at hr'
            exact ih3 r' hr'
      | some r =>
          simp only [hf, Option.map_some'] at hg
          obtain ⟨gg, hgg⟩ : ∃ gg, first_failing_gate cfg stats injury_report l = some gg := by
            cases hgg2 : first_failing_gate cfg stats injury_report l with
            | none =>
                rw [hgg2, Option.map_none'] at hg
                exact Option.noConfusion hg
            | some gg => exact ⟨gg, rfl⟩
          have hpair : (r.player, r.reason) = (l.player_name, reason_of gg) := by
            rw [hgg, Option.map_some'] at hg
            exact Option.some.inj hg
          refine ⟨?_, ?_, ?_⟩
          · simp only [filter_players, hf]
            simp [List.filter_cons, hgg, ih1]
          · simp only [filter_players, hf]
            simp [List.filterMap_cons, hgg, hpair, ih2]
          · intro r' hr'
            simp only [filter_players, hf] at hr'
            rcases List.mem_cons.mp hr' with h | h
            · rw [h]
              exact filter_one_nonempty cfg stats injury_report l r hf
            · exact ih3 r' h

/-- The qualification predicate of the claim: recommendation not NO_VALUE,
edge percent at least the configured minimum, confidence at least the
configured minimum. -/
def qualifies (v : ValueConfig) (p : ProbabilityResult) : Prop :=
  p.recommended_bet ≠ BetType.NO_VALUE ∧
  p.edge_percent ≥ v.min_edge_percent ∧
  p.confidence ≥ v.min_confidence

instance (v : ValueConfig) (p : ProbabilityResult) : Decidable (qualifies v p) := by
  unfold qualifies
  infer_instance

/-- The nested value checks of the `detect_value_bets` loop body are the
single conjunctive qualification test of the claim. -/
theorem detect_one_eq (sqrtQ ncdf : ℚ → ℚ) (cc : ContextConfig) (v : ValueConfig)
    (team_defenses : Option (List (String × TeamDefense))) (item : AnalyzedItem) :
    detect_one sqrtQ ncdf cc v team_defenses item
      = if qualifies v (item_prob sqrtQ ncdf cc v team_defenses item)
        then some (value_bet_of (item_prob sqrtQ ncdf cc v team_defenses item) item)
        else none := by
  unfold detect_one qualifies
  dsimp only
  by_cases h1 : (item_prob sqrtQ ncdf cc v team_defenses item).recommended_bet ≠ BetType.NO_VALUE
  · rw [if_pos h1]
    by_cases h2 : (item_prob sqrtQ ncdf cc v team_defenses item).edge_percent ≥ v.min_edge_percent
    · rw [if_pos h2]
      by_cases h3 : (item_prob sqrtQ ncdf cc v team_defenses item).confidence ≥ v.min_confidence
      · rw [if_pos h3, if_pos ⟨h1, h2, h3⟩]
      · rw [if_neg h3, if_neg (fun hc => h3 hc.2.2)]
    · rw [if_neg h2, if_neg (fun hc => h2 hc.2.1)]
  · rw [if_neg h1, if_neg (fun hc => h1 hc.1)]

/-- The edge comparator is transitive. -/
theorem edgeDescB_trans (a b c : ValueBet) :
    edgeDescB a b → edgeDescB b c → edgeDescB a c := by
  unfold edgeDescB
  simp only [decide_eq_true_eq]
  intro h1 h2
  exact le_trans h2 h1

/-- The edge comparator is total. -/
theorem edgeDescB_total (a b : ValueBet) : edgeDescB a b || edgeDescB b a := by
  unfold edgeDescB
  simp only [Bool.or_eq_true, decide_eq_true_eq]
  exact le_total _ _

/-- Rank reassignment does not change the edge percents. -/
theorem assign_ranks_map_edge (i : ℕ) (l : List ValueBet) :
    (assign_ranks i l).map (·.edge_percent) = l.map (·.edge_percent) := by
  induction l generalizing i with
  | nil => rfl
  | cons vb rest ih =>
      simp only [assign_ranks, List.map_cons, ih]

/-- Element `k` of the rank-assignment loop started at `i` has rank
`i + k + 1`. -/
theorem assign_ranks_rank (l : List ValueBet) (i k : ℕ)
    (h : k < (assign_ranks i l).length) :
    ((assign_ranks i l).get ⟨k, h⟩).rank = i + k + 1 := by
  induction l generalizing i k with
  | nil => exact absurd h (by simp [assign_ranks])
  | cons vb rest ih =>
      cases k with
      | zero => rfl
      | succ k =>
          have h' : k < (assign_ranks (i + 1) rest).length := by
            simpa [assign_ranks] using h
          have := ih (i + 1) k h'
          simpa [assign_ranks, Nat.add_assoc, Nat.add_comm, Nat.add_left_comm] using this

/-- C2: `ValueDetector.detect_value_bets` keeps exactly the items whose
probability result qualifies (recommendation not NO_VALUE, edge percent
and confidence at least their configured minima), stable-sorts them by
edge percent descending (any already-ordered selection of the candidates
keeps its relative order), assigns 1-based ranks equal to positions in
that order, and returns at most the configured top-N first items. -/
theorem detect_value_bets_spec (sqrtQ ncdf : ℚ → ℚ) (cc : ContextConfig)
    (v : ValueConfig) (analyzed_players : List AnalyzedItem)
    (team_defenses : Option (List (String × TeamDefense))) :
    let cand := analyzed_players.filterMap (detect_one sqrtQ ncdf cc v team_defenses)
    let result := detect_value_bets sqrtQ ncdf cc v analyzed_players team_defenses
    (∀ item, detect_one sqrtQ ncdf cc v team_defenses item
        = if qualifies v (item_prob sqrtQ ncdf cc v team_defenses item)
          then some (value_bet_of (item_prob sqrtQ ncdf cc v team_defenses item) item)
          else none) ∧
    result = (assign_ranks 0 (cand.mergeSort edgeDescB)).take v.top_n_results ∧
    result.length ≤ v.top_n_results ∧
    result.Pairwise (fun a b => a.edge_percent ≥ b.edge_percent) ∧
    (∀ i (h : i < result.length), result[i].rank = i + 1) ∧
    (∀ c : List ValueBet, c.Sublist cand →
      c.Pairwise (fun a b => b.edge_percent ≤ a.edge_percent) →
      c.Sublist (cand.mergeSort edgeDescB)) := by
  intro cand result
  have hres : result = (assign_ranks 0 (cand.mergeSort edgeDescB)).take v.top_n_results := rfl
  have hp2 : (cand.mergeSort edgeDescB).Pairwise
      (fun a b => a.edge_percent ≥ b.edge_percent) := by
    have hp1 := List.sorted_mergeSort
      edgeDescB_trans edgeDescB_total cand
    exact hp1.imp (fun h => by
      simpa [edgeDescB, decide_eq_true_eq] using h)
  have hp3 : (assign_ranks 0 (cand.mergeSort edgeDescB)).Pairwise
      (fun a b => a.edge_percent ≥ b.edge_percent) := by
    have hmm : ((cand.mergeSort edgeDescB).map (fun vb : ValueBet => vb.edge_percent)).Pairwise
        (fun a b => a ≥ b) := List.pairwise_map.mpr hp2
    rw [← assign_ranks_map_edge 0] at hmm
    exact List.pairwise_map.mp hmm
  refine ⟨detect_one_eq sqrtQ ncdf cc v team_defenses, hres, ?_, ?_, ?_, ?_⟩
  · rw [hres]
    exact List.length_take_le _ _
  · rw [hres]
    exact List.Pairwise.sublist (List.take_sublist _ _) hp3
  · intro i h
    have h2 : i < (assign_ranks 0 (cand.mergeSort edgeDescB)).length := by
      have := h
      rw [hres, List.length_take] at this
      exact lt_of_lt_of_le this (Nat.min_le_right _ _)
    have hget := assign_ranks_rank (cand.mergeSort edgeDescB) 0 i h2
    rw [List.get_eq_getElem] at hget
    calc result[i].rank
        = (assign_ranks 0 (cand.mergeSort edgeDescB))[i].rank := by
          congr 1
          exact List.getElem_take _
      _ = i + 1 := by
          rw [hget]
          omega
  · intro c hsub hpair
    have hpair' : c.Pairwise (fun a b => edgeDescB a b) := by
      exact hpair.imp (fun h => by
        simpa [edgeDescB, decide_eq_true_eq] using h)
    exact List.sublist_mergeSort edgeDescB_trans edgeDescB_total hpair' hsub

/-- The `detect_value_bets` loop with the analysed pool threaded as
explicit state: each iteration reads one item, builds fresh objects, and
hands the pool on unchanged (the loop never writes to the pool). -/
def detect_loop (sqrtQ ncdf : ℚ → ℚ) (cc : ContextConfig) (v : ValueConfig)
    (team_defenses : Option (List (String × TeamDefense))) :
    List AnalyzedItem → List ValueBet × List AnalyzedItem
  | [] => ([], [])
  | item :: rest =>
      let bet? := detect_one sqrtQ ncdf cc v team_defenses item
      let tail := detect_loop sqrtQ ncdf cc v team_defenses rest
      (match bet? with
       | some vb => vb :: tail.1
       | none => tail.1,
       item :: tail.2)

/-- `detect_value_bets` with the pool as explicit state: the ranked top-N
list together with the pool as the call leaves it. -/
def detect_value_bets_run (sqrtQ ncdf : ℚ → ℚ) (cc : ContextConfig)
    (v : ValueConfig) (analyzed_players : List AnalyzedItem)
    (team_defenses : Option (List (String × TeamDefense))) :
    List ValueBet × List AnalyzedItem :=
  let looped := detect_loop sqrtQ ncdf cc v team_defenses analyzed_players
  ((assign_ranks 0 (looped.1.mergeSort edgeDescB)).take v.top_n_results, looped.2)

/-- The explicit-state loop returns the pool it was given and collects
exactly what the pure loop body collects. -/
theorem detect_loop_frame (sqrtQ ncdf : ℚ → ℚ) (cc : ContextConfig)
    (v : ValueConfig) (team_defenses : Option (List (String × TeamDefense)))
    (pool : List AnalyzedItem) :
    (detect_loop sqrtQ ncdf cc v team_defenses pool).2 = pool ∧
    (detect_loop sqrtQ ncdf cc v team_defenses pool).1
      = pool.filterMap (detect_one sqrtQ ncdf cc v team_defenses) := by
  induction pool with
  | nil => exact ⟨rfl, rfl⟩
  | cons item rest ih =>
      refine ⟨?_, ?_⟩
      · simp only [detect_loop, ih.1]
      · simp only [detect_loop, List.filterMap_cons]
        cases hb : detect_one sqrtQ ncdf cc v team_defenses item with
        | none => simp [ih.2]
        | some vb => simp [ih.2]

/-- C9: `detect_value_bets` is a pure deterministic function of its
arguments — equal analysed pools and team-defense mappings give the very
same ranked list — and, run with the pool as explicit state, it returns
that pool unchanged while computing exactly the pure function's result. -/
theorem detect_value_bets_deterministic (sqrtQ ncdf : ℚ → ℚ)
    (cc : ContextConfig) (v : ValueConfig)
    (a₁ a₂ : List AnalyzedItem)
    (d₁ d₂ : Option (List (String × TeamDefense)))
    (ha : a₁ = a₂) (hd : d₁ = d₂) :
    (detect_value_bets_run sqrtQ ncdf cc v a₁ d₁).2 = a₁ ∧
    (detect_value_bets_run sqrtQ ncdf cc v a₁ d₁).1
      = detect_value_bets sqrtQ ncdf cc v a₁ d₁ ∧
    detect_value_bets sqrtQ ncdf cc v a₁ d₁
      = detect_value_bets sqrtQ ncdf cc v a₂ d₂ := by
  subst ha
  subst hd
  refine ⟨(detect_loop_frame sqrtQ ncdf cc v d₁ a₁).1, ?_, rfl⟩
  show (assign_ranks 0
      ((detect_loop sqrtQ ncdf cc v d₁ a₁).1.mergeSort edgeDescB)).take v.top_n_results
    = detect_value_bets sqrtQ ncdf cc v a₁ d₁
  rw [(detect_loop_frame sqrtQ ncdf cc v d₁ a₁).2]
  rfl

/-- Concrete stability metrics for the C9 witness pool item. -/
def metricsC9w : StabilityMetrics :=
  { player_name := "Test Player"
    mean_pts := 83 / 4
    std_pts := 9 / 8
    cv_pts := 9 / 166
    mean_minutes := 30
    std_minutes := 0
    cv_minutes := 0
    hit_rate_last_5 := 0
    hit_rate_last_10 := 0
    stability_score := 85
    is_stable := true
    risk_level := "low" }

/-- Concrete trend record for the C9 witness pool item. -/
def trendC9w : Trend :=
  { pts_avg_5 := 20
    pts_avg_10 := 167 / 8
    pts_trend_pct := -(21 / 5)
    pts_direction := "stable"
    min_avg_5 := 30
    min_avg_10 := 30
    min_trend_pct := 0
    min_direction := "stable" }

/-- Witness for C9 at a concrete pool (the `statsC7` item under the
`lineC8` market) and team-defense mapping. -/
theorem detect_value_bets_deterministic_witness :
    (detect_value_bets_run sqrtTable ncdfLin defaultContextConfig defaultValueConfig
        [⟨lineC8, statsC7, metricsC9w, trendC9w⟩] none).2
      = [⟨lineC8, statsC7, metricsC9w, trendC9w⟩] ∧
    (detect_value_bets_run sqrtTable ncdfLin defaultContextConfig defaultValueConfig
        [⟨lineC8, statsC7, metricsC9w, trendC9w⟩] none).1
      = detect_value_bets sqrtTable ncdfLin defaultContextConfig defaultValueConfig
          [⟨lineC8, statsC7, metricsC9w, trendC9w⟩] none ∧
    detect_value_bets sqrtTable ncdfLin defaultContextConfig defaultValueConfig
        [⟨lineC8, statsC7, metricsC9w, trendC9w⟩] none
      = detect_value_bets sqrtTable ncdfLin defaultContextConfig defaultValueConfig
          [⟨lineC8, statsC7, metricsC9w, trendC9w⟩] none :=
  detect_value_bets_deterministic sqrtTable ncdfLin defaultContextConfig
    defaultValueConfig _ _ none none rfl rfl

/-- The stability-score comparator is transitive. -/
theorem scoreDescB_trans (a b c : AnalyzedItem) :
    scoreDescB a b → scoreDescB b c → scoreDescB a c := by
  unfold scoreDescB
  simp only [decide_eq_true_eq]
  intro h1 h2
  exact le_trans h2 h1

/-- The stability-score comparator is total. -/
theorem scoreDescB_total (a b : AnalyzedItem) : scoreDescB a b || scoreDescB b a := by
  unfold scoreDescB
  simp only [Bool.or_eq_true, decide_eq_true_eq]
  exact le_total _ _

/-- C10 (implicit): the analysed list `analyze_player_pool` hands to the
detector is the stable descending sort by stability score of the
per-accepted-line analysis results: sorted by score descending, a
permutation of them, with every already-ordered selection keeping its
relative order — so the detector's input order (and hence the tie-break
order among equal edge percents) is stability-score order, not the
original line-input order. -/
theorem analyze_player_pool_sorted (sqrtQ : ℚ → ℚ) (fc : FilterConfig)
    (sc : StabilityConfig) (lines : List PlayerLine)
    (stats : List (String × PlayerStats))
    (injury_report : Option (List (String × String)))
    (res : List AnalyzedItem)
    (h : build_analysis sqrtQ sc stats
        (filter_players fc lines stats injury_report).1 = .ok res) :
    (analyze_player_pool sqrtQ fc sc lines stats injury_report).map PoolResult.analyzed
      = .ok (res.mergeSort scoreDescB) ∧
    (res.mergeSort scoreDescB).Pairwise
      (fun a b => a.stability.stability_score ≥ b.stability.stability_score) ∧
    (res.mergeSort scoreDescB).Perm res ∧
    (∀ c : List AnalyzedItem, c.Sublist res →
      c.Pairwise (fun a b => b.stability.stability_score ≤ a.stability.stability_score) →
      c.Sublist (res.mergeSort scoreDescB)) := by
  refine ⟨?_, ?_, List.mergeSort_perm res scoreDescB, ?_⟩
  · unfold analyze_player_pool
    dsimp only
    rw [h]
    rfl
  · have hp := List.sorted_mergeSort
      scoreDescB_trans scoreDescB_total res
    exact hp.imp (fun hab => by
      simpa [scoreDescB, decide_eq_true_eq] using hab)
  · intro c hsub hpair
    have hpair' : c.Pairwise (fun a b => scoreDescB a b) :=
      hpair.imp (fun hab => by
        simpa [scoreDescB, decide_eq_true_eq] using hab)
    exact List.sublist_mergeSort scoreDescB_trans scoreDescB_total hpair' hsub

/-- Concrete available player stats: ten identical 20-point, 30-minute
games (variance `0`), eligible under every default filter gate. -/
def statsC10 : PlayerStats :=
  { player_name := "LeBron James"
    player_id := "23"
    team := "LAL"
    season_ppg := 20
    season_mpg := 30
    season_usage := 25
    games_played := 10
    last_5_games := [⟨20, 30⟩, ⟨20, 30⟩, ⟨20, 30⟩, ⟨20, 30⟩, ⟨20, 30⟩]
    last_10_games := [⟨20, 30⟩, ⟨20, 30⟩, ⟨20, 30⟩, ⟨20, 30⟩, ⟨20, 30⟩,
      ⟨20, 30⟩, ⟨20, 30⟩, ⟨20, 30⟩, ⟨20, 30⟩, ⟨20, 30⟩]
    avg_min_last_10 := 30 }

/-- The stability metrics `analyze` computes for `statsC10` against
`lineC8` (zero variance, zero hit rate against the 25.5 line, score
`0.35·100 + 0.30·100 + 0.20·100 + 0.15·0 = 85`, risk "low"). -/
def metricsC10 : StabilityMetrics :=
  { player_name := "LeBron James"
    mean_pts := 20
    std_pts := 0
    cv_pts := 0
    mean_minutes := 30
    std_minutes := 0
    cv_minutes := 0
    hit_rate_last_5 := 0
    hit_rate_last_10 := 0
    stability_score := 85
    is_stable := true
    risk_level := "low" }

/-- The trend `get_trend` computes for `statsC10`. -/
def trendC10 : Trend :=
  { pts_avg_5 := 20
    pts_avg_10 := 20
    pts_trend_pct := 0
    pts_direction := "stable"
    min_avg_5 := 30
    min_avg_10 := 30
    min_trend_pct := 0
    min_direction := "stable" }

/-- The single analysed-pool item built from `lineC8` and `statsC10`. -/
def itemC10 : AnalyzedItem :=
  { line := lineC8, stats := statsC10, stability := metricsC10, trend := trendC10 }

/-- Witness for C10: one line (`lineC8`) with eligible stats
(`statsC10`); the per-line analysis yields exactly `[itemC10]` and the
pool's analysed output is its (singleton) stable sort. -/
theorem analyze_player_pool_sorted_witness :
    ((analyze_player_pool sqrtTable defaultFilterConfig defaultStabilityConfig
        [lineC8] [("LeBron James", statsC10)] none).map PoolResult.analyzed
      = .ok ([itemC10].mergeSort scoreDescB)) ∧
    ([itemC10].mergeSort scoreDescB).Pairwise
      (fun a b => a.stability.stability_score ≥ b.stability.stability_score) ∧
    ([itemC10].mergeSort scoreDescB).Perm [itemC10] ∧
    (∀ c : List AnalyzedItem, c.Sublist [itemC10] →
      c.Pairwise (fun a b => b.stability.stability_score ≤ a.stability.stability_score) →
      c.Sublist ([itemC10].mergeSort scoreDescB)) :=
  analyze_player_pool_sorted sqrtTable defaultFilterConfig defaultStabilityConfig
    [lineC8] [("LeBron James", statsC10)] none [itemC10]
    (by
      have hfp : (filter_players defaultFilterConfig [lineC8]
          [("LeBron James", statsC10)] none).1 = [lineC8] := by
        norm_num [filter_players, filter_one, injury_lookup, statsC10, lineC8,
          defaultFilterConfig, fmtQ]
      rw [hfp]
      have han : analyze sqrtTable defaultStabilityConfig statsC10 lineC8
          = .ok metricsC10 := by
        unfold analyze statsC10 lineC8 metricsC10
        norm_num [meanQ, popVar, stdQ, sqrtTable, calculate_stability_score,
          defaultStabilityConfig, determine_risk_level, round1, round_eq]
      have htr : get_trend statsC10 = trendC10 := by
        unfold get_trend statsC10 trendC10
        norm_num [meanQ]
      have hlk : List.lookup lineC8.player_name [("LeBron James", statsC10)]
          = some statsC10 := rfl
      simp only [build_analysis, hlk]
      show Except.bind (Except.ok statsC10) _ = _
      simp only [Except.bind, han, htr]
      show Except.bind (Except.ok metricsC10) _ = _
      simp only [Except.bind]
      rfl)
